import Mathlib

/-
Verification development for posixmqcontrol (posixmqcontrol.c).

The C program is shallowly embedded below. Machine integers are modelled as
Nat/Int with explicit wrap where the C code truncates; calls into the message
queue service (mq_open, fstat, fchown, fchmod, mq_close, mq_send, ...) are
modelled by an environment of oracle outcomes, and every side effect of the
program (service calls and stderr diagnostics) is recorded in an event trace.
-/

namespace MQC

/-- PATH_MAX on FreeBSD. -/
def pathMax : Nat := 1024

/-- MQ_PRIO_MAX on FreeBSD. -/
def mqPrioMax : Int := 64

/-- errno value EINVAL. -/
def einval : Int := 22

/-- isspace for the default locale, as consulted by strtol/strtoul. -/
def isSpaceChar (c : Char) : Bool :=
  c = ' ' || c = '\t' || c = '\n' || c = '\x0b' || c = '\x0c' || c = '\r'

/-- Digit test for bases up to 10 (the program uses bases 8 and 10). -/
def isDigitBase (b : Nat) (c : Char) : Bool :=
  '0' ≤ c && c.toNat < '0'.toNat + b

/-- Numeric value of a digit string in base b (most significant first). -/
def digitsVal (b : Nat) (ds : List Char) : Nat :=
  ds.foldl (fun a c => a * b + (c.toNat - '0'.toNat)) 0

/-- Split one optional leading sign; returns (isMinus, remainder). -/
def splitSign : List Char → Bool × List Char
  | '-' :: cs => (true, cs)
  | '+' :: cs => (false, cs)
  | cs => (false, cs)

/-- LONG_MAX for 64-bit long. -/
def longMax : Int := 2 ^ 63 - 1

/-- LONG_MIN for 64-bit long. -/
def longMin : Int := -(2 ^ 63)

/-- ULONG_MAX for 64-bit unsigned long. -/
def ulongMax : Nat := 2 ^ 64 - 1

/-- strtol(text, &cursor, b): skips leading whitespace and one optional sign,
then consumes digits of base b. Returns none when no digit was consumed
(cursor == text), otherwise the converted long, clamped on overflow. -/
def strtolM (b : Nat) (cs : List Char) : Option Int :=
  let cs1 := cs.dropWhile isSpaceChar
  let sp := splitSign cs1
  let ds := sp.2.takeWhile (isDigitBase b)
  if ds.isEmpty then none
  else
    let v : Int := (if sp.1 then -1 else 1) * Int.ofNat (digitsVal b ds)
    some (max longMin (min longMax v))

/-- strtoul(text, &cursor, b): like strtolM but unsigned. When the digit run
overflows, ULONG_MAX is returned and the sign is ignored; otherwise a minus
sign negates the magnitude in unsigned-long arithmetic (the FreeBSD libc
order: the overflow clamp wins over the negation). -/
def strtoulM (b : Nat) (cs : List Char) : Option Nat :=
  let cs1 := cs.dropWhile isSpaceChar
  let sp := splitSign cs1
  let ds := sp.2.takeWhile (isDigitBase b)
  if ds.isEmpty then none
  else
    let m := digitsVal b ds
    some (if ulongMax < m then ulongMax
          else if sp.1 then (2 ^ 64 - m) % 2 ^ 64 else m)

/-- One observable step of the program: a service call or a stderr
diagnostic. -/
inductive Event where
  | openExist (queue : String)
  | openCreate (queue : String) (mode : Nat) (maxmsg : Int) (msgsize : Int) (nonblock : Bool)
  | statCall
  | chownCall (uid gid : Nat)
  | chmodCall (mode : Nat)
  | closeCall
  | unlinkCall (queue : String)
  | getattrCall
  | sendMsg (queue : String) (payload : List Char) (prio : Int)
  | receiveCall (queue : String)
  | errMsg (text : String)
  | warnMsg (text : String)
deriving DecidableEq

/-- True for events that are calls into the message queue service (as opposed
to stderr diagnostics). -/
def Event.isService : Event → Bool
  | .errMsg _ => false
  | .warnMsg _ => false
  | _ => true

/-- True for the mode-change (fchmod) service call. -/
def Event.isChmod : Event → Bool
  | .chmodCall _ => true
  | _ => false

/-- True for the creating open (mq_open with O_CREAT). -/
def Event.isOpenCreate : Event → Bool
  | .openCreate _ _ _ _ _ => true
  | _ => false

/-- True for the ownership-change (fchown) service call. -/
def Event.isChown : Event → Bool
  | .chownCall _ _ => true
  | _ => false

/-- struct Creation from posixmqcontrol.c (`exists` is spelled `exists_`
because `exists` is reserved in Lean). -/
structure Creation where
  exists_ : Bool
  set_mode : Bool
  mode : Nat
  depth : Int
  size : Int
  block : Bool
  set_group : Bool
  group : Nat
  set_user : Bool
  user : Nat
deriving DecidableEq

/-- The static initializer of the global `creation`. -/
def creationDefault : Creation :=
  { exists_ := false, set_mode := false, mode := 0o755, depth := -1, size := -1,
    block := true, set_group := false, group := 0, set_user := false, user := 0 }

/-- Name-lookup oracles for getgrnam and getpwnam. -/
structure World where
  grnam : String → Option Nat
  pwnam : String → Option Nat

/-- The mutable program state touched by the option parse callbacks: the
global `creation`, the `queues` and `contents` lists, and `priority`,
together with the name-lookup world. -/
structure PState where
  creation : Creation
  queues : List String
  contents : List String
  priority : Int
  world : World

/-- Diagnostic text of validate_size. -/
def sizeErrText : String := "error: -s maximum message size not provided."

/-- Diagnostic text of validate_depth. -/
def depthErrText : String := "error: -d maximum queue depth not provided."

/-- The scanning loop of sane_queue: `size` counts characters already
accepted (the leading slash included); rejects a second slash seen while
size < PATH_MAX, and rejects leftover characters once size reaches
PATH_MAX. -/
def saneScan : List Char → Nat → Bool × List Event
  | [], _ => (true, [])
  | c :: cs, size =>
    if size < pathMax then
      if c = '/' then (false, [Event.errMsg "error: queue name - only one slash permitted."])
      else saneScan cs (size + 1)
    else (false, [Event.errMsg "error: queue name may not be longer than PATH_MAX."])

/-- sane_queue from posixmqcontrol.c, over the character list of the name. -/
def sane_queue : List Char → Bool × List Event
  | [] => (false, [Event.errMsg "error: queue name must start with a slash."])
  | c :: cs =>
    if c = '/' then saneScan cs 1
    else (false, [Event.errMsg "error: queue name must start with a slash."])

/-- parse_long: strtol base 10; on success the captured long is replaced,
otherwise an error diagnostic is emitted and the capture keeps its value. -/
def parse_long (text : String) (capture : Int) (msg : String) : Int × List Event :=
  match strtolM 10 text.data with
  | some v => (v, [])
  | none => (capture, [Event.errMsg msg])

/-- parse_unsigned: strtoul base 8; on success the set flag is raised and the
value (truncated to unsigned int) captured, otherwise a warning is emitted. -/
def parse_unsigned (text : String) (set0 : Bool) (cap0 : Nat) (msg : String) :
    Bool × Nat × List Event :=
  match strtoulM 8 text.data with
  | some v => (true, v % 2 ^ 32, [])
  | none => (set0, cap0, [Event.warnMsg msg])

/-- parse_block from posixmqcontrol.c. -/
def parse_block (text : String) (st : PState) : PState × List Event :=
  if text = "true" || text = "yes" then
    ({ st with creation := { st.creation with block := true } }, [])
  else if text = "false" || text = "no" then
    ({ st with creation := { st.creation with block := false } }, [])
  else
    match strtolM 10 text.data with
    | some v => ({ st with creation := { st.creation with block := v ≠ 0 } }, [])
    | none => (st, [Event.warnMsg "warning: bad -b block format ignored."])

/-- parse_content from posixmqcontrol.c: append the payload. -/
def parse_content (text : String) (st : PState) : PState × List Event :=
  ({ st with contents := st.contents ++ [text] }, [])

/-- parse_depth from posixmqcontrol.c. -/
def parse_depth (text : String) (st : PState) : PState × List Event :=
  let r := parse_long text st.creation.depth "error: -d depth invalid format."
  ({ st with creation := { st.creation with depth := r.1 } }, r.2)

/-- parse_size from posixmqcontrol.c. -/
def parse_size (text : String) (st : PState) : PState × List Event :=
  let r := parse_long text st.creation.size "error: -s size invalid format."
  ({ st with creation := { st.creation with size := r.1 } }, r.2)

/-- parse_group from posixmqcontrol.c: getgrnam lookup, with the
parse_unsigned octal fallback when the name is unknown. -/
def parse_group (text : String) (st : PState) : PState × List Event :=
  match st.world.grnam text with
  | some gid =>
    ({ st with creation := { st.creation with set_group := true, group := gid } }, [])
  | none =>
    let r := parse_unsigned text st.creation.set_group st.creation.group
      "warning: -g group format ignored."
    ({ st with creation := { st.creation with set_group := r.1, group := r.2.1 } }, r.2.2)

/-- parse_user from posixmqcontrol.c: getpwnam lookup, with the
parse_unsigned octal fallback when the name is unknown. -/
def parse_user (text : String) (st : PState) : PState × List Event :=
  match st.world.pwnam text with
  | some uid =>
    ({ st with creation := { st.creation with set_user := true, user := uid } }, [])
  | none =>
    let r := parse_unsigned text st.creation.set_user st.creation.user
      "warning: -u user format ignored."
    ({ st with creation := { st.creation with set_user := r.1, user := r.2.1 } }, r.2.2)

/-- parse_mode from posixmqcontrol.c: strtol base 8 with a (0, 010000)
range check. -/
def parse_mode (text : String) (st : PState) : PState × List Event :=
  match strtolM 8 text.data with
  | some v =>
    if 0 < v ∧ v < 0o10000 then
      ({ st with creation := { st.creation with set_mode := true, mode := v.toNat } }, [])
    else (st, [Event.warnMsg "warning: impossible -m mode value ignored."])
  | none => (st, [Event.warnMsg "warning: impossible -m mode value ignored."])

/-- parse_priority from posixmqcontrol.c: strtol base 10 with a
[0, MQ_PRIO_MAX) range check. -/
def parse_priority (text : String) (st : PState) : PState × List Event :=
  match strtolM 10 text.data with
  | some v =>
    if 0 ≤ v ∧ v < mqPrioMax then ({ st with priority := v }, [])
    else (st, [Event.warnMsg "warning: bad -p priority range ignored."])
  | none => (st, [Event.warnMsg "warning: bad -p priority format ignored."])

/-- parse_queue from posixmqcontrol.c: append iff the name is sane. -/
def parse_queue (q : String) (st : PState) : PState × List Event :=
  let sq := sane_queue q.data
  if sq.1 then ({ st with queues := st.queues ++ [q] }, sq.2)
  else (st, sq.2)

/-- parse_single_queue from posixmqcontrol.c: a sane name is appended only
when the queue list is still empty; later sane names are dropped with a
warning. -/
def parse_single_queue (q : String) (st : PState) : PState × List Event :=
  let sq := sane_queue q.data
  if sq.1 then
    if st.queues = [] then ({ st with queues := st.queues ++ [q] }, sq.2)
    else (st, sq.2 ++ [Event.warnMsg ("warning: ignoring extra -q queue " ++ q)])
  else (st, sq.2)

/-- validate_always_true from posixmqcontrol.c. -/
def validate_always_true (_ : PState) : Bool × List Event := (true, [])

/-- validate_content from posixmqcontrol.c. -/
def validate_content (st : PState) : Bool × List Event :=
  let valid := decide (st.contents ≠ [])
  (valid, if valid then [] else [Event.errMsg "error: no content to send."])

/-- validate_mode from posixmqcontrol.c (no diagnostic). -/
def validate_mode (st : PState) : Bool × List Event :=
  (decide (0 < st.creation.mode), [])

/-- validate_queue from posixmqcontrol.c. -/
def validate_queue (st : PState) : Bool × List Event :=
  let valid := decide (st.queues ≠ [])
  (valid, if valid then [] else [Event.errMsg "error: missing -q, or no sane queue name given."])

/-- validate_single_queue from posixmqcontrol.c: the list has a first
element and no second one. -/
def validate_single_queue (st : PState) : Bool × List Event :=
  let valid := match st.queues with | [_] => true | _ => false
  (valid, if valid then [] else [Event.errMsg "error: expected one queue."])

/-- validate_depth from posixmqcontrol.c; it reads the global creation
record, which is what `create` receives by value. -/
def validate_depth (c : Creation) : Bool × List Event :=
  let valid := c.exists_ || decide (0 < c.depth)
  (valid, if valid then [] else [Event.errMsg depthErrText])

/-- validate_size from posixmqcontrol.c. -/
def validate_size (c : Creation) : Bool × List Event :=
  let valid := c.exists_ || decide (0 < c.size)
  (valid, if valid then [] else [Event.errMsg sizeErrText])

/-- struct Option from posixmqcontrol.c (named Opt: Option is taken). -/
structure Opt where
  pattern : List String
  parse : String → PState → PState × List Event
  validate : PState → Bool × List Event

/-- Search the descriptor table for the first descriptor whose alias set
contains the token (tables and alias lists are scanned in order). -/
def findOpt (opts : List Opt) (tok : String) : Option Opt :=
  opts.find? (fun o => o.pattern.contains tok)

/-- parse_options from posixmqcontrol.c: while at least two tokens remain,
a matched flag consumes itself and the next token (its value) through the
descriptor parse operation; an unmatched flag is skipped with a warning and
only itself is consumed; a final single leftover token is warned about. -/
def parse_options (opts : List Opt) : List String → PState → PState × List Event
  | a :: b :: rest, st =>
    match findOpt opts a with
    | some o =>
      let pr := o.parse b st
      let nx := parse_options opts rest pr.1
      (nx.1, pr.2 ++ nx.2)
    | none =>
      let nx := parse_options opts (b :: rest) st
      (nx.1, Event.warnMsg ("warning: skipping " ++ a) :: nx.2)
  | [a], st => (st, [Event.warnMsg ("warning: skipping " ++ a)])
  | [], st => (st, [])

/-- validate_options from posixmqcontrol.c: every descriptor validator is
invoked (diagnostics from all of them are emitted); the verdict is their
conjunction. -/
def validate_options (opts : List Opt) (st : PState) : Bool × List Event :=
  opts.foldl (fun acc o => let r := o.validate st; (acc.1 && r.1, acc.2 ++ r.2)) (true, [])

/-- The per-verb gate in main: parse already done, run the validators; on
success run the batch, otherwise return EINVAL having performed nothing. -/
def runVerb (opts : List Opt) (batch : PState → Int × List Event) (st : PState) :
    Int × List Event :=
  let v := validate_options opts st
  if v.1 then
    let b := batch st
    (b.1, v.2 ++ b.2)
  else (einval, v.2)

/-- names_queue with its Option rows. -/
def option_queue : Opt := ⟨["-q", "--queue", "-t", "--topic"], parse_queue, validate_queue⟩

/-- option_single_queue shares names_queue. -/
def option_single_queue : Opt :=
  ⟨["-q", "--queue", "-t", "--topic"], parse_single_queue, validate_single_queue⟩

/-- option_depth. -/
def option_depth : Opt := ⟨["-d", "--depth", "--maxmsg"], parse_depth, validate_always_true⟩

/-- option_size. -/
def option_size : Opt := ⟨["-s", "--size", "--msgsize"], parse_size, validate_always_true⟩

/-- option_block. -/
def option_block : Opt := ⟨["-b", "--block"], parse_block, validate_always_true⟩

/-- option_content. -/
def option_content : Opt :=
  ⟨["-c", "--content", "--data", "--message"], parse_content, validate_content⟩

/-- option_priority. -/
def option_priority : Opt := ⟨["-p", "--priority"], parse_priority, validate_always_true⟩

/-- option_mode. -/
def option_mode : Opt := ⟨["-m", "--mode"], parse_mode, validate_mode⟩

/-- option_group. -/
def option_group : Opt := ⟨["-g", "--gid"], parse_group, validate_always_true⟩

/-- option_user. -/
def option_user : Opt := ⟨["-u", "--uid"], parse_user, validate_always_true⟩

/-- create_options (the __BSD_VISIBLE build, the one with the chown/chmod
reconciliation steps). -/
def create_options : List Opt :=
  [option_queue, option_depth, option_size, option_block, option_mode, option_group, option_user]

/-- info_options. -/
def info_options : List Opt := [option_queue]

/-- unlink_options. -/
def unlink_options : List Opt := [option_queue]

/-- recv_options. -/
def recv_options : List Opt := [option_single_queue]

/-- send_options. -/
def send_options : List Opt := [option_queue, option_content, option_priority]

/-- Oracle outcomes of the service calls one `create` invocation can make:
none means success, some e means failure with errno e; stMode/stUid/stGid are
what fstat observes; closeRes is the return value of the final mq_close. -/
structure CreateEnv where
  openExist : Option Int
  openCreate : Option Int
  getfd : Option Int
  fstatRes : Option Int
  stMode : Nat
  stUid : Nat
  stGid : Nat
  chownRes : Option Int
  chmodRes : Option Int
  closeRes : Int
deriving DecidableEq

/-- The conditional fchmod step of `create`, then the final mq_close. The
guard compares the requested mode against st_mode masked with the literal
0x06777 exactly as the source does. -/
def createChmod (cfg : Creation) (qcExists setMode : Bool) (env : CreateEnv)
    (tr : List Event) : Int × List Event :=
  if qcExists && setMode && (cfg.mode != Nat.land env.stMode 0x6777) then
    let tr2 := tr ++ [Event.chmodCall cfg.mode]
    match env.chmodRes with
    | some e => (e, tr2 ++ [Event.errMsg "fchmod(create)", Event.closeCall])
    | none => (env.closeRes, tr2 ++ [Event.closeCall])
  else (env.closeRes, tr ++ [Event.closeCall])

/-- The tail of `create` after a handle was obtained and fstat succeeded:
the conditional fchown step, then createChmod. The uid/gid fall back to the
observed owner when not explicitly requested. -/
def createChown (cfg : Creation) (qcExists setMode : Bool) (env : CreateEnv)
    (tr : List Event) : Int × List Event :=
  if cfg.set_group || cfg.set_user then
    match env.chownRes with
    | some e =>
      (e, tr ++ [Event.chownCall (if cfg.set_user then cfg.user else env.stUid)
            (if cfg.set_group then cfg.group else env.stGid),
          Event.errMsg "fchown(create)", Event.closeCall])
    | none =>
      createChmod cfg qcExists setMode env
        (tr ++ [Event.chownCall (if cfg.set_user then cfg.user else env.stUid)
          (if cfg.set_group then cfg.group else env.stGid)])
  else createChmod cfg qcExists setMode env tr

/-- The __BSD_VISIBLE tail of `create` once a handle is held: mq_getfd_np,
fstat, then the chown/chmod steps. qcExists and setMode are the local
q_creation.exists and q_creation.set_mode at this point. -/
def createPost (cfg : Creation) (qcExists setMode : Bool) (env : CreateEnv)
    (tr : List Event) : Int × List Event :=
  match env.getfd with
  | some e => (e, tr ++ [Event.errMsg "mq_getfd_np(create)", Event.closeCall])
  | none =>
    let tr2 := tr ++ [Event.statCall]
    match env.fstatRes with
    | some e => (e, tr2 ++ [Event.errMsg "fstat(create)", Event.closeCall])
    | none => createChown cfg qcExists setMode env tr2

/-- create from posixmqcontrol.c. The Creation argument is the global
`creation` record, passed by value exactly as in the source; the validators
invoked mid-way read that same record. The probe open and, when needed, the
creating open are decided by the environment. -/
def createRun (queue : String) (cfg : Creation) (env : CreateEnv) : Int × List Event :=
  let tr0 := [Event.openExist queue]
  match env.openExist with
  | none => createPost cfg true cfg.set_mode env tr0
  | some e =>
    let vs := validate_size cfg
    if vs.1 then
      let vd := validate_depth cfg
      if vd.1 then
        let tr1 := tr0 ++ vs.2 ++ vd.2 ++
          [Event.openCreate queue cfg.mode cfg.depth cfg.size (!cfg.block)]
        match env.openCreate with
        | none => createPost cfg false false env tr1
        | some e2 => (e2, tr1 ++ [Event.errMsg "mq_open(create)"])
      else (e, tr0 ++ vs.2 ++ vd.2 ++ [Event.errMsg "mq_open(create)"])
    else (e, tr0 ++ vs.2 ++ [Event.errMsg "mq_open(create)"])

/-- Oracle outcomes for one `send` invocation; msgSize is the mq_msgsize
reported by mq_getattr. -/
structure SendEnv where
  openRes : Option Int
  getattrRes : Option Int
  msgSize : Int
  sendRes : Option Int
  closeRes : Int
deriving DecidableEq

/-- send from posixmqcontrol.c: open, getattr, cap the payload length at
mq_msgsize with a warning, mq_send, close. -/
def sendRun (queue : String) (text : String) (prio : Int) (env : SendEnv) :
    Int × List Event :=
  match env.openRes with
  | some e => (e, [Event.errMsg "mq_open(send)"])
  | none =>
    match env.getattrRes with
    | some e => (e, [Event.getattrCall, Event.errMsg "mq_attr(send)", Event.closeCall])
    | none =>
      let size : Int := (text.length : Int)
      let cap := if size > env.msgSize then
        (env.msgSize, [Event.warnMsg "warning: truncating message."])
      else (size, [])
      let tr := [Event.getattrCall] ++ cap.2 ++
        [Event.sendMsg queue (text.data.take cap.1.toNat) prio]
      match env.sendRes with
      | some e => (e, tr ++ [Event.errMsg "mq_send", Event.closeCall])
      | none => (env.closeRes, tr ++ [Event.closeCall])

/-- The worst-result batch loop shared by the create/info/send/unlink verbs
in main: run the per-target operation on every target in order, threading a
state, keeping the last non-zero result. -/
def batchLoop {α σ : Type} (op : α → σ → Int × σ) : List α → σ → Int → Int × σ
  | [], s, w => (w, s)
  | t :: ts, s, w =>
    let r := op t s
    batchLoop op ts r.2 (if r.1 ≠ 0 then r.1 else w)

/-- The per-target results the batch loop observes, in order. -/
def batchResults {α σ : Type} (op : α → σ → Int × σ) : List α → σ → List Int
  | [], _ => []
  | t :: ts, s =>
    let r := op t s
    r.1 :: batchResults op ts r.2

/-- Specification-side aggregate: the last non-zero entry, or the default. -/
def lastNonZero (rs : List Int) (d : Int) : Int :=
  (rs.filter (fun r => decide (r ≠ 0))).getLastD d

/-- The inner loop of the send verb: one queue, every payload. -/
def sendLoopInner {σ : Type} (op : String × String → σ → Int × σ) (q : String) :
    List String → σ → Int → Int × σ
  | [], s, w => (w, s)
  | c :: cs, s, w =>
    let r := op (q, c) s
    sendLoopInner op q cs r.2 (if r.1 ≠ 0 then r.1 else w)

/-- The nested loops of the send verb in main: every queue, and for each,
every payload, sharing one worst accumulator. -/
def sendLoopOuter {σ : Type} (op : String × String → σ → Int × σ) :
    List String → List String → σ → Int → Int × σ
  | [], _, s, w => (w, s)
  | q :: qs, cons, s, w =>
    let r := sendLoopInner op q cons s w
    sendLoopOuter op qs cons r.2 r.1

/-- The create/attr batch from main: each target is passed the same global
creation record (by value) together with its own service environment; the
trace of every target is collected. -/
def createBatch (cfg : Creation) : List (String × CreateEnv) → Int → Int × List (List Event)
  | [], w => (w, [])
  | t :: ts, w =>
    let r := createRun t.1 cfg t.2
    let rec_ := createBatch cfg ts (if r.1 ≠ 0 then r.1 else w)
    (rec_.1, r.2 :: rec_.2)

/-- A world where no group or user name resolves. -/
def world0 : World := ⟨fun _ => none, fun _ => none⟩

/-- The program state right after startup (globals at their initializers). -/
def st0 : PState := ⟨creationDefault, [], [], mqPrioMax / 2, world0⟩

/-- A state that already collected one queue name. -/
def st1 : PState := { st0 with queues := ["/a"] }

/-- Creation record of a create/attr run that explicitly requested -m 755. -/
def c1Cfg : Creation := { creationDefault with set_mode := true, mode := 0o755 }

/-- Environment of an existing queue whose fstat reports st_mode 0o100755
(a regular file bearing permission bits 0o755), every call succeeding. -/
def c1Env : CreateEnv :=
  { openExist := none, openCreate := none, getfd := none, fstatRes := none,
    stMode := 0o100755, stUid := 0, stGid := 0, chownRes := none, chmodRes := none,
    closeRes := 0 }

/-- Environment of a queue that does not exist: the probe open fails with
errno 2 (ENOENT). -/
def c2Env : CreateEnv :=
  { openExist := some 2, openCreate := none, getfd := none, fstatRes := none,
    stMode := 0, stUid := 0, stGid := 0, chownRes := none, chmodRes := none,
    closeRes := 0 }

/-- Send environment: every call succeeds and mq_getattr reports
mq_msgsize = 3. -/
def c8Env : SendEnv :=
  { openRes := none, getattrRes := none, msgSize := 3, sendRes := none, closeRes := 0 }

/-- The scanning loop of sane_queue accepts exactly the suffixes free of
further slashes that keep the total length within PATH_MAX. -/
theorem saneScan_spec (cs : List Char) : ∀ size : Nat, size ≤ pathMax →
    ((saneScan cs size).1 = true ↔ ('/' ∉ cs ∧ cs.length + size ≤ pathMax)) := by
  induction cs with
  | nil =>
    intro size h
    simp only [saneScan, List.not_mem_nil, not_false_iff, true_and, List.length_nil, Nat.zero_add]
    exact iff_of_true trivial h
  | cons c cs ih =>
    intro size h
    by_cases hs : size < pathMax
    · by_cases hc : c = '/'
      · subst hc
        simp [saneScan, hs]
      · rw [saneScan]
        simp only [hs, if_true, hc, if_false]
        rw [ih (size + 1) (by omega)]
        simp only [List.mem_cons, List.length_cons]
        constructor
        · rintro ⟨h1, h2⟩
          exact ⟨by rintro (h3 | h3); exact hc h3.symm; exact h1 h3, by omega⟩
        · rintro ⟨h1, h2⟩
          exact ⟨fun h3 => h1 (Or.inr h3), by omega⟩
    · rw [saneScan]
      simp only [hs, if_false, List.length_cons]
      constructor
      · intro h'
        exact absurd h' (by simp)
      · rintro ⟨-, h2⟩
        omega

/-- C7: the queue-name sanity check accepts a string iff it starts with a
slash, its remainder holds no further slash, and its length is at most
PATH_MAX; and parse_queue never appends a name the check rejects. -/
theorem c7_sane_queue_iff :
    (∀ s : List Char, (sane_queue s).1 = true ↔
      (s.head? = some '/' ∧ '/' ∉ s.tail ∧ s.length ≤ pathMax))
    ∧ (∀ (q : String) (st : PState), (sane_queue q.data).1 = false →
        (parse_queue q st).1.queues = st.queues) := by
  constructor
  · intro s
    match s with
    | [] => simp [sane_queue]
    | c :: cs =>
      by_cases hc : c = '/'
      · subst hc
        rw [sane_queue, if_pos rfl, saneScan_spec cs 1 (by simp [pathMax])]
        simp only [List.head?_cons, List.tail_cons, List.length_cons]
        constructor
        · rintro ⟨h1, h2⟩; exact ⟨by simp, h1, by omega⟩
        · rintro ⟨-, h1, h2⟩; exact ⟨h1, by omega⟩
      · rw [sane_queue, if_neg hc]
        simp [hc]
  · intro q st h
    simp [parse_queue, h]

/-- C7 witness: the characterization at /mq, and the no-append consequence
at the rejected name ab. -/
theorem c7_witness :
    ((sane_queue "/mq".data).1 = true ↔
      ("/mq".data.head? = some '/' ∧ '/' ∉ "/mq".data.tail ∧ "/mq".data.length ≤ pathMax))
    ∧ (parse_queue "ab" st1).1.queues = st1.queues :=
  ⟨c7_sane_queue_iff.1 "/mq".data, c7_sane_queue_iff.2 "ab" st1 (by decide)⟩

/-- C5: once a queue name is held, parse_single_queue leaves the state
unchanged and (for a sane extra name) warns; on an empty list a sane name
becomes the single element; and validate_single_queue passes iff exactly one
name was kept. -/
theorem c5_single_queue_first_wins (q : String) (st : PState) :
    (st.queues ≠ [] →
      (parse_single_queue q st).1 = st ∧
      ((sane_queue q.data).1 = true →
        Event.warnMsg ("warning: ignoring extra -q queue " ++ q) ∈ (parse_single_queue q st).2))
    ∧ (st.queues = [] → (sane_queue q.data).1 = true →
        (parse_single_queue q st).1.queues = [q])
    ∧ (∀ st' : PState, (validate_single_queue st').1 = true ↔ st'.queues.length = 1) := by
  refine ⟨?_, ?_, ?_⟩
  · intro hne
    by_cases hs : (sane_queue q.data).1
    · refine ⟨by simp [parse_single_queue, hs, hne], fun _ => ?_⟩
      simp [parse_single_queue, hs, hne]
    · simp only [Bool.not_eq_true] at hs
      exact ⟨by simp [parse_single_queue, hs], fun h => absurd h (by simp [hs])⟩
  · intro he hs
    simp [parse_single_queue, hs, he]
  · intro st'
    cases h : st'.queues with
    | nil => simp [validate_single_queue, h]
    | cons a l => cases l <;> simp [validate_single_queue, h]

/-- C5 witness: with /a already collected, a second sane -q value /b is
dropped with a warning, and the exactly-one validator characterization holds
at that state. -/
theorem c5_witness :
    (parse_single_queue "/b" st1).1 = st1 ∧
    Event.warnMsg ("warning: ignoring extra -q queue " ++ "/b") ∈ (parse_single_queue "/b" st1).2 ∧
    ((validate_single_queue st1).1 = true ↔ st1.queues.length = 1) := by
  have h := c5_single_queue_first_wins "/b" st1
  exact ⟨(h.1 (by decide)).1, (h.1 (by decide)).2 (by decide), h.2.2 st1⟩

/-- C3: a token matching a descriptor consumes itself and the next token and
runs that descriptor's parse on the value; an unmatched token is warned about
and only itself is consumed; a single leftover token only draws a warning.
The engine is a total function, so it never aborts. -/
theorem c3_dispatch (opts : List Opt) (a b : String) (rest : List String) (st : PState) :
    (∀ o : Opt, findOpt opts a = some o →
      parse_options opts (a :: b :: rest) st =
        ((parse_options opts rest (o.parse b st).1).1,
         (o.parse b st).2 ++ (parse_options opts rest (o.parse b st).1).2))
    ∧ (findOpt opts a = none →
      parse_options opts (a :: b :: rest) st =
        ((parse_options opts (b :: rest) st).1,
         Event.warnMsg ("warning: skipping " ++ a) :: (parse_options opts (b :: rest) st).2))
    ∧ parse_options opts [a] st = (st, [Event.warnMsg ("warning: skipping " ++ a)])
    ∧ parse_options opts ([] : List String) st = (st, []) := by
  refine ⟨?_, ?_, rfl, rfl⟩
  · intro o h
    simp [parse_options, h]
  · intro h
    simp [parse_options, h]

/-- C3 witness: in the send table, -c matches option_content and consumes
its value. -/
theorem c3_witness :
    parse_options send_options ["-c", "hi"] st0 =
      ((parse_options send_options [] (option_content.parse "hi" st0).1).1,
       (option_content.parse "hi" st0).2 ++
       (parse_options send_options [] (option_content.parse "hi" st0).1).2) :=
  (c3_dispatch send_options "-c" "hi" [] st0).1 option_content rfl

/-- The worst accumulator of the batch loop is a left fold of the observed
per-target results. -/
theorem batchLoop_eq_foldl {α σ : Type} (op : α → σ → Int × σ) :
    ∀ (ts : List α) (s : σ) (w : Int),
    (batchLoop op ts s w).1 =
      (batchResults op ts s).foldl (fun a r => if r ≠ 0 then r else a) w := by
  intro ts
  induction ts with
  | nil => intro s w; rfl
  | cons t ts ih => intro s w; simp [batchLoop, batchResults, ih]

/-- That fold keeps the last non-zero entry. -/
theorem foldl_lastNonZero : ∀ (rs : List Int) (w : Int),
    rs.foldl (fun a r => if r ≠ 0 then r else a) w = lastNonZero rs w := by
  intro rs
  induction rs with
  | nil => intro w; rfl
  | cons r rs ih =>
    intro w
    rw [List.foldl_cons]
    by_cases h : r = 0
    · subst h
      rw [if_neg (by simp), ih]
      unfold lastNonZero
      rw [List.filter_cons_of_neg (by simp)]
    · rw [if_pos h, ih]
      unfold lastNonZero
      rw [List.filter_cons_of_pos (by simp [h]), List.getLastD_cons]

/-- One result is observed per target. -/
theorem batchResults_length {α σ : Type} (op : α → σ → Int × σ) :
    ∀ (ts : List α) (s : σ), (batchResults op ts s).length = ts.length := by
  intro ts
  induction ts with
  | nil => intro s; rfl
  | cons t ts ih => intro s; simp [batchResults, ih]

/-- Filtering non-zeros out of an all-zero list leaves nothing. -/
theorem filter_zero_nil (l : List Int) (h : ∀ r ∈ l, r = 0) :
    l.filter (fun r => decide (r ≠ 0)) = [] := by
  rw [List.filter_eq_nil_iff]
  intro a ha
  simp [h a ha]

/-- The inner send loop is the batch loop over one queue paired with every
payload. -/
theorem sendLoopInner_eq {σ : Type} (op : String × String → σ → Int × σ) (q : String) :
    ∀ (cs : List String) (s : σ) (w : Int),
    sendLoopInner op q cs s w = batchLoop op (cs.map (fun c => (q, c))) s w := by
  intro cs
  induction cs with
  | nil => intro s w; rfl
  | cons c cs ih => intro s w; simp [sendLoopInner, batchLoop, ih]

/-- The batch loop over an appended target list runs the two halves in
sequence, threading state and worst result. -/
theorem batchLoop_append {α σ : Type} (op : α → σ → Int × σ) :
    ∀ (l1 l2 : List α) (s : σ) (w : Int),
    batchLoop op (l1 ++ l2) s w =
      batchLoop op l2 (batchLoop op l1 s w).2 (batchLoop op l1 s w).1 := by
  intro l1
  induction l1 with
  | nil => intro l2 s w; rfl
  | cons t l1 ih => intro l2 s w; simp [batchLoop, ih]

/-- The nested send loops equal the batch loop over the queue-payload cross
product. -/
theorem sendLoopOuter_eq {σ : Type} (op : String × String → σ → Int × σ) :
    ∀ (qs cs : List String) (s : σ) (w : Int),
    sendLoopOuter op qs cs s w =
      batchLoop op (qs.flatMap (fun q => cs.map (fun c => (q, c)))) s w := by
  intro qs
  induction qs with
  | nil => intro cs s w; rfl
  | cons q qs ih =>
    intro cs s w
    simp [sendLoopOuter, sendLoopInner_eq, batchLoop_append, ih]

/-- C4: a batch observes one result per target (every target is attempted),
its final status is the last non-zero per-target result (zero when all
succeeded) - so when exactly targets k and m fail with k before m the status
is the failure code of m - and the send verb's nested loops are the same
batch over the queue-payload cross product. -/
theorem c4_batch_last_failure_wins {σ α : Type} (op : α → σ → Int × σ) (ts : List α) (s : σ)
    (opp : String × String → σ → Int × σ) (qs cs : List String) (s2 : σ) (w2 : Int) :
    (batchResults op ts s).length = ts.length
    ∧ (batchLoop op ts s 0).1 = lastNonZero (batchResults op ts s) 0
    ∧ (∀ (pre mid post : List Int) (x y : Int),
        batchResults op ts s = pre ++ x :: (mid ++ y :: post) →
        x ≠ 0 → y ≠ 0 →
        (∀ r ∈ pre, r = 0) → (∀ r ∈ mid, r = 0) → (∀ r ∈ post, r = 0) →
        (batchLoop op ts s 0).1 = y)
    ∧ sendLoopOuter opp qs cs s2 w2 =
        batchLoop opp (qs.flatMap (fun q => cs.map (fun c => (q, c)))) s2 w2 := by
  refine ⟨batchResults_length op ts s, ?_, ?_, sendLoopOuter_eq opp qs cs s2 w2⟩
  · rw [batchLoop_eq_foldl, foldl_lastNonZero]
  · intro pre mid post x y hres hx hy hpre hmid hpost
    rw [batchLoop_eq_foldl, foldl_lastNonZero, hres]
    unfold lastNonZero
    rw [List.filter_append, filter_zero_nil pre hpre,
        List.filter_cons_of_pos (by simp [hx]),
        List.filter_append, filter_zero_nil mid hmid,
        List.filter_cons_of_pos (by simp [hy]),
        filter_zero_nil post hpost]
    simp [List.getLastD_cons]

/-- C4 witness: with per-target results 0, 3, 0, 5, 0 the batch status is 5,
the last failure. -/
theorem c4_witness :
    (batchLoop (fun (r : Int) (u : Unit) => (r, u)) [0, 3, 0, 5, 0] () 0).1 = 5 := by
  exact (c4_batch_last_failure_wins (fun (r : Int) (u : Unit) => (r, u)) [0, 3, 0, 5, 0] ()
      (fun _ u => (0, u)) [] [] () 0).2.2.1 [0] [0] [0] 3 5 rfl (by decide) (by decide)
      (by decide) (by decide) (by decide)

/-- C1 (code bug): on an existing queue with observed st_mode 0o100755 the
permission bits are 0o755 and the explicitly requested mode is the same
0o755, yet `create` issues an fchmod call: its guard compares the mode
against st_mode masked with the hexadecimal literal 0x06777 (0o63567), which
drops the owner-write bit, instead of the permission mask 0o7777. -/
theorem c1_mode_mask_bug :
    c1Cfg.set_mode = true ∧ c1Env.openExist = none ∧
    c1Cfg.mode = Nat.land c1Env.stMode 0o7777 ∧
    (createRun "/q" c1Cfg c1Env).2.countP Event.isChmod = 1 := by decide

/-- Diagnostics reachable from the fchmod step. -/
theorem createChmod_err (cfg : Creation) (b m : Bool) (env : CreateEnv) (tr : List Event)
    (s : String) (h : Event.errMsg s ∈ (createChmod cfg b m env tr).2) :
    Event.errMsg s ∈ tr ∨ s = "fchmod(create)" := by
  unfold createChmod at h
  split at h
  · split at h <;> simp at h <;> tauto
  · simp at h; tauto

/-- Diagnostics reachable from the fchown step onward. -/
theorem createChown_err (cfg : Creation) (b m : Bool) (env : CreateEnv) (tr : List Event)
    (s : String) (h : Event.errMsg s ∈ (createChown cfg b m env tr).2) :
    Event.errMsg s ∈ tr ∨ s = "fchown(create)" ∨ s = "fchmod(create)" := by
  unfold createChown at h
  split at h
  · cases hc : env.chownRes with
    | some e =>
      rw [hc] at h
      simp at h
      tauto
    | none =>
      rw [hc] at h
      rcases createChmod_err _ _ _ _ _ _ h with h2 | h2
      · simp at h2; tauto
      · tauto
  · rcases createChmod_err _ _ _ _ _ _ h with h2 | h2 <;> tauto

/-- Diagnostics reachable once a handle is held. -/
theorem createPost_err (cfg : Creation) (b m : Bool) (env : CreateEnv) (tr : List Event)
    (s : String) (h : Event.errMsg s ∈ (createPost cfg b m env tr).2) :
    Event.errMsg s ∈ tr ∨ s = "mq_getfd_np(create)" ∨ s = "fstat(create)" ∨
      s = "fchown(create)" ∨ s = "fchmod(create)" := by
  unfold createPost at h
  split at h
  · simp at h; tauto
  · split at h
    · simp at h; tauto
    · rcases createChown_err _ _ _ _ _ _ h with h2 | h2 | h2
      · simp at h2; tauto
      · tauto
      · tauto

/-- The post-open phase of create reads neither size nor depth. -/
theorem createPost_size_depth (cfg : Creation) (s d : Int) (b m : Bool) (env : CreateEnv)
    (tr : List Event) :
    createPost { cfg with size := s, depth := d } b m env tr = createPost cfg b m env tr := rfl

/-- C2: when the probe open succeeds (the queue exists) create emits no
size/depth validation error and its behavior is independent of the size and
depth settings; when the probe fails and size or depth is not positive, the
creating open (and every later service call) is never issued - the only
service call in the trace is the probe itself - a validation diagnostic is
emitted, and the per-target result is the probe's errno. -/
theorem c2_create_size_depth_requirements (queue : String) (cfg : Creation) (env : CreateEnv) :
    (env.openExist = none →
      Event.errMsg sizeErrText ∉ (createRun queue cfg env).2 ∧
      Event.errMsg depthErrText ∉ (createRun queue cfg env).2 ∧
      (∀ s d : Int, createRun queue { cfg with size := s, depth := d } env =
        createRun queue cfg env))
    ∧ (∀ e : Int, env.openExist = some e → cfg.exists_ = false →
        (cfg.size ≤ 0 ∨ cfg.depth ≤ 0) →
        (createRun queue cfg env).1 = e ∧
        ((createRun queue cfg env).2.filter Event.isService).length = 1 ∧
        (Event.errMsg sizeErrText ∈ (createRun queue cfg env).2 ∨
         Event.errMsg depthErrText ∈ (createRun queue cfg env).2)) := by
  have hrun : env.openExist = none →
      createRun queue cfg env = createPost cfg true cfg.set_mode env [Event.openExist queue] := by
    intro hex; unfold createRun; rw [hex]
  constructor
  · intro hex
    refine ⟨?_, ?_, ?_⟩
    · intro h
      rw [hrun hex] at h
      rcases createPost_err _ _ _ _ _ _ h with h2 | h2 | h2 | h2 | h2
      · simp at h2
      · exact absurd h2 (by decide)
      · exact absurd h2 (by decide)
      · exact absurd h2 (by decide)
      · exact absurd h2 (by decide)
    · intro h
      rw [hrun hex] at h
      rcases createPost_err _ _ _ _ _ _ h with h2 | h2 | h2 | h2 | h2
      · simp at h2
      · exact absurd h2 (by decide)
      · exact absurd h2 (by decide)
      · exact absurd h2 (by decide)
      · exact absurd h2 (by decide)
    · intro s d
      have h1 : createRun queue { cfg with size := s, depth := d } env =
          createPost { cfg with size := s, depth := d } true cfg.set_mode env
            [Event.openExist queue] := by
        unfold createRun; rw [hex]
      rw [h1, createPost_size_depth, hrun hex]
  · intro e he hex hsd
    unfold createRun
    rw [he]
    by_cases hs : (0 : Int) < cfg.size
    · have hd : ¬ (0 : Int) < cfg.depth := by
        rcases hsd with h | h
        · omega
        · omega
      simp [validate_size, validate_depth, hex, hs, hd, Event.isService]
    · simp [validate_size, hex, hs, Event.isService]

/-- C2 witness: with the default configuration (size and depth unset) and a
probe failing with ENOENT, the target is rejected with the probe errno, the
probe is the only service call, and a validation diagnostic was emitted. -/
theorem c2_witness :
    (createRun "/w" creationDefault c2Env).1 = 2 ∧
    ((createRun "/w" creationDefault c2Env).2.filter Event.isService).length = 1 ∧
    (Event.errMsg sizeErrText ∈ (createRun "/w" creationDefault c2Env).2 ∨
     Event.errMsg depthErrText ∈ (createRun "/w" creationDefault c2Env).2) :=
  (c2_create_size_depth_requirements "/w" creationDefault c2Env).2 2 rfl rfl
    (Or.inl (by decide))

/-- validate_queue emits only diagnostics. -/
theorem validate_queue_diag (st : PState) (ev : Event) (h : ev ∈ (validate_queue st).2) :
    ev.isService = false := by
  simp only [validate_queue] at h
  split at h
  · simp at h
  · simp at h; subst h; rfl

/-- validate_single_queue emits only diagnostics. -/
theorem validate_single_queue_diag (st : PState) (ev : Event)
    (h : ev ∈ (validate_single_queue st).2) : ev.isService = false := by
  simp only [validate_single_queue] at h
  split at h
  · simp at h
  · simp at h; subst h; rfl

/-- validate_content emits only diagnostics. -/
theorem validate_content_diag (st : PState) (ev : Event) (h : ev ∈ (validate_content st).2) :
    ev.isService = false := by
  simp only [validate_content] at h
  split at h
  · simp at h
  · simp at h; subst h; rfl

/-- validate_mode emits nothing. -/
theorem validate_mode_diag (st : PState) (ev : Event) (h : ev ∈ (validate_mode st).2) :
    ev.isService = false := by
  simp [validate_mode] at h

/-- validate_always_true emits nothing. -/
theorem validate_always_true_diag (st : PState) (ev : Event)
    (h : ev ∈ (validate_always_true st).2) : ev.isService = false := by
  simp [validate_always_true] at h

/-- validate_options runs every validator: the verdict is the conjunction
over the whole table and the diagnostics of all validators are collected. -/
theorem validate_options_spec (opts : List Opt) (st : PState) :
    validate_options opts st =
      (opts.all (fun o => (o.validate st).1),
       (opts.map (fun o => (o.validate st).2)).flatten) := by
  have hgo : ∀ (l : List Opt) (b : Bool) (es : List Event),
      l.foldl (fun acc o => let r := o.validate st; (acc.1 && r.1, acc.2 ++ r.2)) (b, es) =
        (b && l.all (fun o => (o.validate st).1),
         es ++ (l.map (fun o => (o.validate st).2)).flatten) := by
    intro l
    induction l with
    | nil => intro b es; simp
    | cons o l ih => intro b es; simp [ih, Bool.and_assoc]
  unfold validate_options
  rw [hgo]
  simp

/-- C6: the validation pass is not short-circuited (the verdict is the
conjunction over the whole table and every validator's diagnostics appear);
when some validator fails the verb returns EINVAL and its output is exactly
the validation diagnostics - and the concrete verb tables' validators emit
no service event, so no queue operation is performed; when all validators
pass the verb runs its batch. -/
theorem c6_validation_gate (opts : List Opt) (st : PState) (batch : PState → Int × List Event) :
    (validate_options opts st).1 = opts.all (fun o => (o.validate st).1)
    ∧ (validate_options opts st).2 = (opts.map (fun o => (o.validate st).2)).flatten
    ∧ ((∃ o ∈ opts, (o.validate st).1 = false) →
        runVerb opts batch st = (einval, (validate_options opts st).2))
    ∧ ((∀ o ∈ opts, (o.validate st).1 = true) →
        runVerb opts batch st = ((batch st).1, (validate_options opts st).2 ++ (batch st).2))
    ∧ (∀ o ∈ create_options ++ info_options ++ unlink_options ++ recv_options ++ send_options,
        ∀ st' : PState, ∀ ev ∈ (o.validate st').2, ev.isService = false) := by
  refine ⟨by rw [validate_options_spec], by rw [validate_options_spec], ?_, ?_, ?_⟩
  · rintro ⟨o, ho, hf⟩
    have hv : (validate_options opts st).1 = false := by
      rw [validate_options_spec]
      simp only [List.all_eq_false]
      exact ⟨o, ho, by simp [hf]⟩
    unfold runVerb
    rw [if_neg (by simp [hv])]
  · intro hall
    have hv : (validate_options opts st).1 = true := by
      rw [validate_options_spec]
      simp only [List.all_eq_true]
      intro o ho
      exact hall o ho
    unfold runVerb
    rw [if_pos hv]
  · intro o ho st' ev hev
    simp only [create_options, info_options, unlink_options, recv_options, send_options,
      List.mem_append, List.mem_cons, List.not_mem_nil, or_false, or_assoc] at ho
    rcases ho with ho | ho | ho | ho | ho | ho | ho | ho | ho | ho | ho | ho | ho <;> subst ho
    · exact validate_queue_diag st' ev hev
    · exact validate_always_true_diag st' ev hev
    · exact validate_always_true_diag st' ev hev
    · exact validate_always_true_diag st' ev hev
    · exact validate_mode_diag st' ev hev
    · exact validate_always_true_diag st' ev hev
    · exact validate_always_true_diag st' ev hev
    · exact validate_queue_diag st' ev hev
    · exact validate_queue_diag st' ev hev
    · exact validate_single_queue_diag st' ev hev
    · exact validate_queue_diag st' ev hev
    · exact validate_content_diag st' ev hev
    · exact validate_always_true_diag st' ev hev

/-- C6 witness: send with no collected content fails validation, the verb
returns EINVAL and only the validation diagnostics, never invoking the
batch. -/
theorem c6_witness :
    runVerb send_options (fun _ => (0, [Event.closeCall])) st0 =
      (einval, (validate_options send_options st0).2) :=
  (c6_validation_gate send_options st0 (fun _ => (0, [Event.closeCall]))).2.2.1
    ⟨option_content, List.mem_cons_of_mem _ (List.mem_cons_self _ _), by decide⟩

/-- C8: when the send of a payload longer than the queue's mq_msgsize
reaches the length step (open and getattr succeeded), a truncation warning
is emitted, the sent payload is exactly the first mq_msgsize characters,
and the result is the very result of sending that capped payload - length
alone never fails a send. -/
theorem c8_send_truncates (queue text : String) (prio : Int) (env : SendEnv)
    (ho : env.openRes = none) (hg : env.getattrRes = none)
    (hm : 0 ≤ env.msgSize) (hl : env.msgSize < (text.length : Int)) :
    (sendRun queue text prio env).1 =
      (sendRun queue (String.mk (text.data.take env.msgSize.toNat)) prio env).1 ∧
    Event.warnMsg "warning: truncating message." ∈ (sendRun queue text prio env).2 ∧
    Event.sendMsg queue (text.data.take env.msgSize.toNat) prio ∈ (sendRun queue text prio env).2 ∧
    (text.data.take env.msgSize.toNat).length = env.msgSize.toNat := by
  have hn : ((env.msgSize.toNat : Int)) = env.msgSize := Int.toNat_of_nonneg hm
  have hlen : env.msgSize.toNat ≤ text.length := by omega
  have htk : (text.data.take env.msgSize.toNat).length = env.msgSize.toNat := by
    rw [List.length_take]
    exact Nat.min_eq_left hlen
  have hlen2 : (String.mk (text.data.take env.msgSize.toNat)).length = env.msgSize.toNat := htk
  unfold sendRun
  rw [ho, hg]
  simp only
  rw [if_pos (by omega), hlen2, if_neg (by omega)]
  simp only [hn]
  rw [List.take_take, Nat.min_self]
  cases hs : env.sendRes <;> simp [htk]

/-- C8 witness: sending hello through a queue whose mq_msgsize is 3 sends
exactly hel with a warning and succeeds. -/
theorem c8_witness :
    (sendRun "/q" "hello" 5 c8Env).1 =
      (sendRun "/q" (String.mk ("hello".data.take (3 : Int).toNat)) 5 c8Env).1 ∧
    Event.warnMsg "warning: truncating message." ∈ (sendRun "/q" "hello" 5 c8Env).2 ∧
    Event.sendMsg "/q" ("hello".data.take (3 : Int).toNat) 5 ∈ (sendRun "/q" "hello" 5 c8Env).2 ∧
    ("hello".data.take (3 : Int).toNat).length = (3 : Int).toNat :=
  c8_send_truncates "/q" "hello" 5 c8Env rfl rfl (by decide) (by decide)

/-- C9 counterexample: -g with text -7 (unknown as a group name) has no
leading octal digit, yet the code raises set_group and stores
(2^64 - 7) mod 2^32 = 4294967289: strtoul base 8 accepts an optional sign
before the digits. -/
theorem c9_counterexample :
    "-7".data.head? = some '-' ∧ isDigitBase 8 '-' = false ∧
    st0.world.grnam "-7" = none ∧
    st0.creation.set_group = false ∧ st0.creation.group = 0 ∧
    (parse_group "-7" st0).1.creation.set_group = true ∧
    (parse_group "-7" st0).1.creation.group = 4294967289 := by
  refine ⟨by decide, by decide, rfl, rfl, rfl, ?_, ?_⟩ <;> decide

/-- C9 (amended): on a failed group/user name lookup the fallback is strtoul
base 8: after skipping optional whitespace and one optional sign, an empty
octal-digit run leaves the state unchanged (the run stops at the first
non-octal digit, so 8 and 9 end it), while a non-empty run raises the set
flag and captures the run's octal value - ULONG_MAX with the sign ignored
when the run overflows, otherwise negated modulo 2^64 under a minus sign -
truncated modulo 2^32. -/
theorem c9_octal_fallback (text : String) (st : PState) (neg : Bool) (body ds : List Char)
    (hsplit : splitSign (text.data.dropWhile isSpaceChar) = (neg, body))
    (hds : ds = body.takeWhile (isDigitBase 8)) :
    (st.world.grnam text = none →
      (ds = [] → (parse_group text st).1 = st) ∧
      (ds ≠ [] →
        (parse_group text st).1.creation.set_group = true ∧
        (parse_group text st).1.creation.group =
          (if ulongMax < digitsVal 8 ds then ulongMax
           else if neg then (2 ^ 64 - digitsVal 8 ds) % 2 ^ 64
           else digitsVal 8 ds) % 2 ^ 32))
    ∧ (st.world.pwnam text = none →
      (ds = [] → (parse_user text st).1 = st) ∧
      (ds ≠ [] →
        (parse_user text st).1.creation.set_user = true ∧
        (parse_user text st).1.creation.user =
          (if ulongMax < digitsVal 8 ds then ulongMax
           else if neg then (2 ^ 64 - digitsVal 8 ds) % 2 ^ 64
           else digitsVal 8 ds) % 2 ^ 32)) := by
  have hstr : strtoulM 8 text.data =
      (if ds.isEmpty then none
       else some (if ulongMax < digitsVal 8 ds then ulongMax
         else if neg then (2 ^ 64 - digitsVal 8 ds) % 2 ^ 64
         else digitsVal 8 ds)) := by
    simp only [strtoulM, hsplit, ← hds]
  constructor
  · intro hg
    constructor
    · intro hnil
      unfold parse_group
      rw [hg]
      unfold parse_unsigned
      rw [hstr, hnil]
      rfl
    · intro hne
      unfold parse_group
      rw [hg]
      unfold parse_unsigned
      rw [hstr, if_neg (by simpa using hne)]
      exact ⟨rfl, rfl⟩
  · intro hp
    constructor
    · intro hnil
      unfold parse_user
      rw [hp]
      unfold parse_unsigned
      rw [hstr, hnil]
      rfl
    · intro hne
      unfold parse_user
      rw [hp]
      unfold parse_unsigned
      rw [hstr, if_neg (by simpa using hne)]
      exact ⟨rfl, rfl⟩

/-- C9 witness: -g 129 (unknown as a group name) captures the octal prefix
12 only - value 0o12 = 10 - stopping at the digit 9; and -u with a minus
sign and an overflowing digit run (2 * 8^21 = 2^64) stores ULONG_MAX
truncated to 4294967295, the sign being ignored on overflow. -/
theorem c9_witness :
    (parse_group "129" st0).1.creation.set_group = true ∧
    (parse_group "129" st0).1.creation.group = 10 ∧
    (parse_user "-2000000000000000000000" st0).1.creation.set_user = true ∧
    (parse_user "-2000000000000000000000" st0).1.creation.user = 4294967295 := by
  have h := ((c9_octal_fallback "129" st0 false "129".data ['1', '2'] rfl rfl).1 rfl).2
    (by decide)
  have h2 := ((c9_octal_fallback "-2000000000000000000000" st0 true
      "2000000000000000000000".data "2000000000000000000000".data rfl rfl).2 rfl).2
    (by decide)
  exact ⟨h.1, by rw [h.2]; decide, h2.1, by rw [h2.2]; decide⟩

/-- C10: the create/attr batch hands every target the very same creation
record - the per-target traces are a plain map over the targets with the one
shared configuration, and they are independent of the worst accumulator, so
the local exists/set_mode updates one target makes are invisible to every
later target. -/
theorem c10_batch_shares_config (cfg : Creation) (targets : List (String × CreateEnv))
    (w : Int) :
    (createBatch cfg targets w).2 = targets.map (fun t => (createRun t.1 cfg t.2).2)
    ∧ (createBatch cfg targets w).2 = (createBatch cfg targets 0).2
    ∧ (createBatch cfg targets w).2.length = targets.length := by
  have hmap : ∀ w' : Int,
      (createBatch cfg targets w').2 = targets.map (fun t => (createRun t.1 cfg t.2).2) := by
    induction targets with
    | nil => intro w'; rfl
    | cons t ts ih => intro w'; simp [createBatch, ih]
  exact ⟨hmap w, by rw [hmap w, hmap 0], by rw [hmap w]; simp⟩

end MQC
